import Mathlib

/-!
Shallow embedding of the task-management backend (`applications/webapp/backend/src/app.js`)
and proofs about its handlers.

Modelling conventions:
* MongoDB ObjectIds and timestamps are `Nat`.
* The user and task collections are Lean lists; `find?`, `updateFirst` and
  `removeFirst` model `findOne`, `findOneAndUpdate` and `findOneAndDelete`.
* bcrypt hashing/comparison and JWT signing/verification are abstracted into
  function parameters (`hashPw`, `verifyPw`, `verifyTok`): the claims under
  study do not depend on their internals, only on where the handlers call them.
* Joi email validation is abstracted into a parameter `emailValid`; the claims
  under study never depend on which strings count as valid e-mail addresses.
* `dueDate` is modelled as an already-parsed optional timestamp, since no claim
  exercises ISO-date parsing failures.
* Mongoose `trim: true` setters on the register path are omitted: every string
  that reaches the store there has already passed `Joi.string().alphanum()` or
  e-mail validation, so trimming is the identity on all reachable inputs.
  The task-field trims (`title`, `description`, `tags`) are kept.
-/

namespace Webapp

/-- User record as persisted by the mongoose `userSchema` (app.js lines 79-118).
The `password` field holds the bcrypt hash, as after the pre-save hook. -/
structure User where
  uid : Nat
  username : String
  email : String
  password : String
  role : String
  isActive : Bool
  lastLogin : Option Nat
  createdAt : Nat
deriving DecidableEq

/-- Task record as persisted by the mongoose `taskSchema` (app.js lines 139-182). -/
structure Task where
  tid : Nat
  title : String
  description : String
  status : String
  priority : String
  dueDate : Option Nat
  tags : List String
  userId : Nat
  createdAt : Nat
  updatedAt : Nat
deriving DecidableEq

/-- Payload of a task-write request body, after JSON parsing: each key of
`taskSchema_validation` (app.js lines 203-210) is present or absent. -/
structure TaskPayload where
  title : Option String
  description : Option String
  status : Option String
  priority : Option String
  dueDate : Option Nat
  tags : Option (List String)
deriving DecidableEq

/-- Decoded JWT payload: `jwt.sign({ userId, username, role }, ...)` (app.js line 316). -/
structure TokenPayload where
  userId : Nat
  username : String
  role : String
deriving DecidableEq

/-- Outcome of `jwt.verify`: a decoded payload, or an error for any tampered or
expired token (app.js line 221). -/
inductive VerifyResult where
  | valid (payload : TokenPayload)
  | invalid
deriving DecidableEq

/-! Validation (the Joi schemas of app.js lines 192-210). -/

/-- Username rule of `registerSchema`: `Joi.string().alphanum().min(3).max(30).required()`
(app.js line 193). Joi `alphanum` admits exactly `[a-zA-Z0-9]`. Returns
the first error message, or `none` when the username is accepted. -/
def validateUsername (u : String) : Option String :=
  if u.length = 0 then some "username is not allowed to be empty"
  else if u.toList.all (fun c => c.isAlpha || c.isDigit) then
    if u.length < 3 then some "username length must be at least 3 characters long"
    else if 30 < u.length then some "username length must be less than or equal to 30 characters long"
    else none
  else some "username must only contain alpha-numeric characters"

/-- Password rule of `registerSchema`: `Joi.string().min(6).max(128).required()`
(app.js line 195). -/
def validatePassword (p : String) : Option String :=
  if p.length = 0 then some "password is not allowed to be empty"
  else if p.length < 6 then some "password length must be at least 6 characters long"
  else if 128 < p.length then some "password length must be less than or equal to 128 characters long"
  else none

/-- The `registerSchema` check (app.js lines 192-196): keys validated in schema
order, first failure reported, as with Joi default abortEarly. -/
def validateRegister (emailValid : String → Bool) (username email password : String) :
    Option String :=
  match validateUsername username with
  | some m => some m
  | none =>
    if emailValid email then validatePassword password
    else some "email must be a valid email"

/-- Allowed `status` values (app.js line 206). -/
def validStatus (s : String) : Bool :=
  s = "pending" || s = "in-progress" || s = "completed"

/-- Allowed `priority` values (app.js line 207). -/
def validPriority (s : String) : Bool :=
  s = "low" || s = "medium" || s = "high"

/-- Check of the `tags` key of `taskSchema_validation`:
`Joi.array().items(Joi.string().max(20))` (app.js line 209). Each item must be
a nonempty string (Joi strings forbid the empty string unless the schema says
`.allow('')`, as `description` does) of at most 20 characters. -/
def validateTaskWriteTags (p : TaskPayload) : Option String :=
  match p.tags with
  | some ts =>
    if ts.all (fun s => 0 < s.length && s.length ≤ 20) then none
    else some "tags items are not valid strings of at most 20 characters"
  | none => none

/-- Checks of the `priority` and `tags` keys of `taskSchema_validation`. -/
def validateTaskWriteTail (p : TaskPayload) : Option String :=
  match p.priority with
  | some s =>
    if validPriority s then validateTaskWriteTags p
    else some "priority must be one of low, medium, high"
  | none => validateTaskWriteTags p

/-- Checks of the `status`, `priority` and `tags` keys of `taskSchema_validation`. -/
def validateTaskWriteRest (p : TaskPayload) : Option String :=
  match p.status with
  | some s =>
    if validStatus s then validateTaskWriteTail p
    else some "status must be one of pending, in-progress, completed"
  | none => validateTaskWriteTail p

/-- The `taskSchema_validation` check (app.js lines 203-210): `title` is
`required()`; every other key is optional. Keys checked in schema order. -/
def validateTaskWrite (p : TaskPayload) : Option String :=
  match p.title with
  | none => some "title is required"
  | some t =>
    if t.length = 0 then some "title is not allowed to be empty"
    else if 100 < t.length then some "title length must be less than or equal to 100 characters long"
    else match p.description with
      | some d =>
        if 500 < d.length then some "description length must be less than or equal to 500 characters long"
        else validateTaskWriteRest p
      | none => validateTaskWriteRest p

/-! String helpers: JS `split` and `trim` over character lists (the library
string functions recurse over byte positions and do not reduce inside the
kernel, so the JS operations are embedded structurally). -/

/-- Splits a character list at every occurrence of `sep`, keeping empty
groups, as JS `String.prototype.split` does. -/
def splitChars (sep : Char) : List Char → List (List Char)
  | [] => [[]]
  | c :: cs =>
    let r := splitChars sep cs
    if c = sep then [] :: r
    else match r with
      | [] => [[c]]
      | g :: gs => (c :: g) :: gs

/-- JS `s.split(' ')`. -/
def jsSplitSpace (s : String) : List String :=
  (splitChars ' ' s.toList).map List.asString

/-- JS `s.trim()` (the mongoose `trim: true` setter): strips leading and
trailing whitespace. -/
def jsTrim (s : String) : String :=
  (((s.toList.dropWhile Char.isWhitespace).reverse.dropWhile Char.isWhitespace).reverse).asString

/-- JS `s.toLowerCase()` (the mongoose `lowercase: true` setter on `email`). -/
def jsToLower (s : String) : String :=
  (s.toList.map Char.toLower).asString

/-! Generic single-document store operations. -/

/-- Model of `findOneAndUpdate(filter, upd, { new: true })`: replaces the first
element satisfying `p` by its image under `f` and returns it; returns `none`
and the unchanged list when nothing matches. -/
def updateFirst {α : Type} (p : α → Bool) (f : α → α) : List α → Option α × List α
  | [] => (none, [])
  | x :: xs =>
    if p x then (some (f x), f x :: xs)
    else
      let r := updateFirst p f xs
      (r.1, x :: r.2)

/-- Model of `findOneAndDelete(filter)`: removes and returns the first element
satisfying `p`; returns `none` and the unchanged list when nothing matches. -/
def removeFirst {α : Type} (p : α → Bool) : List α → Option α × List α
  | [] => (none, [])
  | x :: xs =>
    if p x then (some x, xs)
    else
      let r := removeFirst p xs
      (r.1, x :: r.2)

/-! Authentication middleware (app.js lines 213-229). -/

/-- Token extraction of `authenticateToken`: JS
`authHeader && authHeader.split(' ')[1]` followed by the `!token` falsiness
check, so a missing header, an empty header, a header without a second
space-separated part, or an empty second part all count as carrying no token. -/
def extractToken (authHeader : Option String) : Option String :=
  match authHeader with
  | none => none
  | some h =>
    if h = "" then none
    else match (jsSplitSpace h).get? 1 with
      | none => none
      | some t => if t = "" then none else some t

/-- Outcome of the `authenticateToken` middleware: an early response, or the
decoded user attached to the request. -/
inductive AuthOutcome where
  | reject (status : Nat) (body : String)
  | proceed (user : TokenPayload)
deriving DecidableEq

/-- The `authenticateToken` middleware (app.js lines 213-229): 401 when no
token is supplied, 403 when `jwt.verify` rejects it, otherwise proceed with
the decoded payload. -/
def authenticateToken (verifyTok : String → VerifyResult) (authHeader : Option String) :
    AuthOutcome :=
  match extractToken authHeader with
  | none => .reject 401 "Access token required"
  | some tok =>
    match verifyTok tok with
    | .invalid => .reject 403 "Invalid token"
    | .valid u => .proceed u

/-- Result of a protected route: either the middleware response, or the
handler result. -/
inductive RouteResult (ρ : Type) where
  | authFail (status : Nat) (body : String)
  | handled (r : ρ)
deriving DecidableEq

/-- Composition `app.VERB(path, authenticateToken, handler)`: the handler body
runs only when the middleware calls `next()`; on rejection the response is the
middleware response and the store is untouched. -/
def protectedRoute {σ ρ : Type} (verifyTok : String → VerifyResult)
    (authHeader : Option String) (handler : TokenPayload → σ → ρ × σ)
    (store : σ) : RouteResult ρ × σ :=
  match authenticateToken verifyTok authHeader with
  | .reject s b => (.authFail s b, store)
  | .proceed u =>
    let rs := handler u store
    (.handled rs.1, rs.2)

/-! Auth handlers. -/

/-- Response of `POST /api/auth/register` (app.js lines 291-337). -/
inductive RegisterResult where
  | badRequest (msg : String)
  | created (token : TokenPayload) (user : User)
deriving DecidableEq

/-- HTTP status of a register response. -/
def registerStatus : RegisterResult → Nat
  | .badRequest _ => 400
  | .created _ _ => 201

/-- The register handler (app.js lines 291-337): validate, check
`findOne({ $or: [{email}, {username}] })`, then create the user with hashed
password and issue a token. `freshId` is the ObjectId the store assigns. -/
def register (hashPw : String → String) (emailValid : String → Bool)
    (now freshId : Nat) (users : List User)
    (username email password : String) : RegisterResult × List User :=
  match validateRegister emailValid username email password with
  | some msg => (.badRequest msg, users)
  | none =>
    match users.find? (fun u => u.email == email || u.username == username) with
    | some _ => (.badRequest "User already exists", users)
    | none =>
      let u : User :=
        { uid := freshId, username := username, email := jsToLower email,
          password := hashPw password, role := "user", isActive := true,
          lastLogin := none, createdAt := now }
      (.created { userId := u.uid, username := u.username, role := u.role } u,
       users ++ [u])

/-- Response of `POST /api/auth/login` (app.js lines 339-391). -/
inductive LoginResult where
  | badRequest (msg : String)
  | unauthorized (msg : String)
  | ok (token : TokenPayload) (user : User)
deriving DecidableEq

/-- HTTP status of a login response. -/
def loginStatus : LoginResult → Nat
  | .badRequest _ => 400
  | .unauthorized _ => 401
  | .ok _ _ => 200

/-- The login handler (app.js lines 339-391): validate with `loginSchema`,
look up `findOne({ email, isActive: true })`, compare the password, update
`lastLogin`, issue a token. Both failure sites respond
`401 { error: 'Invalid credentials' }`. -/
def login (verifyPw : String → String → Bool) (emailValid : String → Bool)
    (now : Nat) (users : List User) (email password : String) :
    LoginResult × List User :=
  if emailValid email then
    if password.length = 0 then (.badRequest "password is not allowed to be empty", users)
    else
      match users.find? (fun u => u.email == email && u.isActive) with
      | none => (.unauthorized "Invalid credentials", users)
      | some u =>
        if verifyPw password u.password then
          let u2 : User := { u with lastLogin := some now }
          (.ok { userId := u.uid, username := u.username, role := u.role } u2,
           (updateFirst (fun v => v.uid == u.uid) (fun _ => u2) users).2)
        else (.unauthorized "Invalid credentials", users)
  else (.badRequest "email must be a valid email", users)

/-- Response of `GET /api/auth/profile` (app.js lines 494-505). -/
inductive ProfileResult where
  | notFound
  | ok (user : User)
deriving DecidableEq

/-- The profile handler: `User.findById(req.user.userId)` then 404 or the user. -/
def getProfile (uid : Nat) (users : List User) : ProfileResult :=
  match users.find? (fun u => u.uid == uid) with
  | none => .notFound
  | some u => .ok u

/-! Task handlers. -/

/-- Truthiness-guarded equality filter: `if (status) filter.status = status`
(app.js lines 399-400) adds no constraint when the query value is absent or
the empty string. -/
def optFilter (q : Option String) (field : String) : Bool :=
  match q with
  | none => true
  | some s => if s = "" then true else field == s

/-- The store filter of `GET /api/tasks` (app.js lines 398-400): owner plus
optional status/priority equality filters. -/
def ownedTasks (uid : Nat) (status priority : Option String) (store : List Task) :
    List Task :=
  store.filter (fun t => t.userId == uid && optFilter status t.status
    && optFilter priority t.priority)

/-- Sort relation of `.sort({ createdAt: -1 })`: createdAt descending. -/
def createdAtGe (a b : Task) : Prop := b.createdAt ≤ a.createdAt

instance : DecidableRel createdAtGe := fun a b => Nat.decLe b.createdAt a.createdAt

instance : IsTotal Task createdAtGe := ⟨fun a b => Nat.le_total b.createdAt a.createdAt⟩

instance : IsTrans Task createdAtGe := ⟨fun _ _ _ h1 h2 => Nat.le_trans h2 h1⟩

/-- Model of `.sort({ createdAt: -1 })` on the query result. -/
def sortByCreatedAtDesc (ts : List Task) : List Task :=
  ts.insertionSort createdAtGe

/-- JS `Math.ceil(total / limit)` for a natural total and integer limit.
A zero limit yields Infinity in JS, which has no integer counterpart; no
claim exercises it and the branch returns 0. -/
def jsCeilDiv (total : Nat) (l : Int) : Int :=
  if 0 < l then Int.ofNat ((total + l.toNat - 1) / l.toNat)
  else if l < 0 then -(Int.ofNat (total / l.natAbs))
  else 0

/-- Response of `GET /api/tasks` (app.js lines 394-419): the page of tasks with
pagination metadata, or the catch-all 500 when the store query fails. -/
inductive ListResult where
  | ok (tasks : List Task) (totalPages : Int) (currentPage : Int) (total : Nat)
  | serverError
deriving DecidableEq

/-- HTTP status of a list response. -/
def listStatus : ListResult → Nat
  | .ok _ _ _ _ => 200
  | .serverError => 500

/-- The list handler (app.js lines 394-419). `page` and `limit` model the query
parameters as supplied integers (`none` when absent, triggering the
destructuring defaults 1 and 10). The skip offset `(page - 1) * limit` is
computed from the raw values; MongoDB rejects a negative skip, which the
catch turns into a 500. A negative limit is treated by MongoDB as its
absolute value, hence `take l.natAbs`. -/
def getTasks (uid : Nat) (page limit : Option Int) (status priority : Option String)
    (store : List Task) : ListResult :=
  if (page.getD 1 - 1) * limit.getD 10 < 0 then .serverError
  else
    .ok (((sortByCreatedAtDesc (ownedTasks uid status priority store)).drop
            ((page.getD 1 - 1) * limit.getD 10).toNat).take (limit.getD 10).natAbs)
      (jsCeilDiv (ownedTasks uid status priority store).length (limit.getD 10))
      (page.getD 1) (ownedTasks uid status priority store).length

/-- Response of `POST /api/tasks` (app.js lines 421-443). -/
inductive CreateResult where
  | badRequest (msg : String)
  | created (task : Task)
deriving DecidableEq

/-- The create handler (app.js lines 421-443): validate, then persist
`new Task({ ...value, userId: req.user.userId })` with the mongoose defaults
and trim setters, `createdAt = updatedAt = now`. -/
def createTask (now freshId uid : Nat) (body : TaskPayload) (store : List Task) :
    CreateResult × List Task :=
  match validateTaskWrite body with
  | some msg => (.badRequest msg, store)
  | none =>
    let t : Task :=
      { tid := freshId,
        title := jsTrim (body.title.getD ""),
        description := jsTrim (body.description.getD ""),
        status := body.status.getD "pending",
        priority := body.priority.getD "medium",
        dueDate := body.dueDate,
        tags := (body.tags.getD []).map jsTrim,
        userId := uid,
        createdAt := now, updatedAt := now }
    (.created t, store ++ [t])

/-- Response of `PUT /api/tasks/:id` (app.js lines 445-472). -/
inductive PutResult where
  | badRequest (msg : String)
  | notFound
  | ok (task : Task)
deriving DecidableEq

/-- HTTP status of an update response. -/
def putStatus : PutResult → Nat
  | .badRequest _ => 400
  | .notFound => 404
  | .ok _ => 200

/-- The update document `{ ...value, updatedAt: new Date() }` applied to the
matched task: each supplied field is set (through the mongoose trim setters),
each omitted field keeps its stored value, and `updatedAt` becomes `now`. -/
def applyUpdate (v : TaskPayload) (now : Nat) (t : Task) : Task :=
  { t with
    title := match v.title with | some s => jsTrim s | none => t.title,
    description := match v.description with | some s => jsTrim s | none => t.description,
    status := v.status.getD t.status,
    priority := v.priority.getD t.priority,
    dueDate := match v.dueDate with | some d => some d | none => t.dueDate,
    tags := match v.tags with | some ts => ts.map jsTrim | none => t.tags,
    updatedAt := now }

/-- The update handler (app.js lines 445-472): validate, then
`findOneAndUpdate({ _id: id, userId: req.user.userId }, ...)`; 404 when no
document matches both the id and the caller. -/
def putTask (now uid id : Nat) (body : TaskPayload) (store : List Task) :
    PutResult × List Task :=
  match validateTaskWrite body with
  | some msg => (.badRequest msg, store)
  | none =>
    let r := updateFirst (fun t => t.tid == id && t.userId == uid)
      (applyUpdate body now) store
    match r.1 with
    | none => (.notFound, r.2)
    | some t => (.ok t, r.2)

/-- Response of `DELETE /api/tasks/:id` (app.js lines 474-491). -/
inductive DeleteResult where
  | notFound
  | ok
deriving DecidableEq

/-- HTTP status of a delete response. -/
def deleteStatus : DeleteResult → Nat
  | .notFound => 404
  | .ok => 200

/-- The delete handler (app.js lines 474-491):
`findOneAndDelete({ _id: id, userId: req.user.userId })`; 404 when no
document matches both the id and the caller. -/
def deleteTask (uid id : Nat) (store : List Task) : DeleteResult × List Task :=
  let r := removeFirst (fun t => t.tid == id && t.userId == uid) store
  match r.1 with
  | none => (.notFound, r.2)
  | some _ => (.ok, r.2)

/-! The five protected routes, each the middleware composed with its handler. -/

/-- Route `GET /api/tasks`. -/
def tasksListRoute (verifyTok : String → VerifyResult) (authHeader : Option String)
    (page limit : Option Int) (status priority : Option String)
    (store : List Task) : RouteResult ListResult × List Task :=
  protectedRoute verifyTok authHeader
    (fun u s => (getTasks u.userId page limit status priority s, s)) store

/-- Route `POST /api/tasks`. -/
def tasksCreateRoute (verifyTok : String → VerifyResult) (authHeader : Option String)
    (now freshId : Nat) (body : TaskPayload) (store : List Task) :
    RouteResult CreateResult × List Task :=
  protectedRoute verifyTok authHeader
    (fun u s => createTask now freshId u.userId body s) store

/-- Route `PUT /api/tasks/:id`. -/
def tasksUpdateRoute (verifyTok : String → VerifyResult) (authHeader : Option String)
    (now id : Nat) (body : TaskPayload) (store : List Task) :
    RouteResult PutResult × List Task :=
  protectedRoute verifyTok authHeader
    (fun u s => putTask now u.userId id body s) store

/-- Route `DELETE /api/tasks/:id`. -/
def tasksDeleteRoute (verifyTok : String → VerifyResult) (authHeader : Option String)
    (id : Nat) (store : List Task) : RouteResult DeleteResult × List Task :=
  protectedRoute verifyTok authHeader
    (fun u s => deleteTask u.userId id s) store

/-- Route `GET /api/auth/profile`. -/
def profileRoute (verifyTok : String → VerifyResult) (authHeader : Option String)
    (users : List User) : RouteResult ProfileResult × List User :=
  protectedRoute verifyTok authHeader
    (fun u s => (getProfile u.userId s, s)) users

/-! Helper lemmas. -/

/-- When no element matches, `updateFirst` reports no document and leaves the
list unchanged. -/
theorem updateFirst_eq_none {α : Type} (p : α → Bool) (f : α → α) :
    ∀ (l : List α), (∀ x ∈ l, p x = false) → updateFirst p f l = (none, l)
  | [], _ => rfl
  | x :: xs, h => by
    have hx : p x = false := h x (List.mem_cons_self x xs)
    have hxs := updateFirst_eq_none p f xs (fun y hy => h y (List.mem_cons_of_mem x hy))
    simp [updateFirst, hx, hxs]

/-- When no element matches, `removeFirst` reports no document and leaves the
list unchanged. -/
theorem removeFirst_eq_none {α : Type} (p : α → Bool) :
    ∀ (l : List α), (∀ x ∈ l, p x = false) → removeFirst p l = (none, l)
  | [], _ => rfl
  | x :: xs, h => by
    have hx : p x = false := h x (List.mem_cons_self x xs)
    have hxs := removeFirst_eq_none p xs (fun y hy => h y (List.mem_cons_of_mem x hy))
    simp [removeFirst, hx, hxs]

/-- `updateFirst` on a list whose first match is `t` replaces exactly `t`. -/
theorem updateFirst_append {α : Type} (p : α → Bool) (f : α → α) :
    ∀ (pre : List α) (t : α) (post : List α),
      (∀ x ∈ pre, p x = false) → p t = true →
      updateFirst p f (pre ++ t :: post) = (some (f t), pre ++ f t :: post)
  | [], t, post, _, ht => by simp [updateFirst, ht]
  | x :: xs, t, post, h, ht => by
    have hx : p x = false := h x (List.mem_cons_self x xs)
    have ih := updateFirst_append p f xs t post
      (fun y hy => h y (List.mem_cons_of_mem x hy)) ht
    simp [updateFirst, hx, ih]

/-- Every task in a successful list-tasks response belongs to the caller. -/
theorem userId_eq_of_mem_getTasks (uid : Nat) (page limit : Option Int)
    (status priority : Option String) (store ts : List Task) (tp cp : Int) (tot : Nat)
    (h : getTasks uid page limit status priority store = .ok ts tp cp tot) :
    ∀ t ∈ ts, t.userId = uid := by
  intro t ht
  rw [getTasks] at h
  split at h
  · simp at h
  · obtain ⟨h1, -, -, -⟩ := ListResult.ok.inj h
    rw [← h1] at ht
    have hsorted : t ∈ sortByCreatedAtDesc (ownedTasks uid status priority store) :=
      List.drop_subset _ _ (List.take_subset _ _ ht)
    have howned : t ∈ ownedTasks uid status priority store := by
      rw [sortByCreatedAtDesc] at hsorted
      exact (List.perm_insertionSort createdAtGe _).mem_iff.mp hsorted
    rw [ownedTasks, List.mem_filter] at howned
    have := howned.2
    simp only [Bool.and_eq_true, beq_iff_eq] at this
    exact this.1.1

/-- Characterization of the Joi username rule: accepted exactly for 3-30
alphanumeric characters (no underscore). -/
theorem validateUsername_eq_none_iff (u : String) :
    validateUsername u = none
      ↔ (u.toList.all (fun c => c.isAlpha || c.isDigit) = true
          ∧ 3 ≤ u.length ∧ u.length ≤ 30) := by
  rw [validateUsername]
  split_ifs with h0 ha h3 h30 <;> simp_all

/-- Characterization of the Joi password rule: accepted exactly for lengths
between 6 and 128 inclusive. -/
theorem validatePassword_eq_none_iff (p : String) :
    validatePassword p = none ↔ (6 ≤ p.length ∧ p.length ≤ 128) := by
  rw [validatePassword]
  split_ifs with h0 h6 h128 <;> simp_all

/-- Characterization of the tags check: accepted exactly when every supplied
tag is nonempty and at most 20 characters. -/
theorem validateTaskWriteTags_eq_none_iff (p : TaskPayload) :
    validateTaskWriteTags p = none
      ↔ ∀ ts, p.tags = some ts →
          (ts.all fun s => 0 < s.length && s.length ≤ 20) = true := by
  cases h : p.tags with
  | none => simp [validateTaskWriteTags, h]
  | some ts =>
    simp only [validateTaskWriteTags, h]
    split_ifs with hc <;> simp_all

/-- Characterization of the priority-and-tags checks. -/
theorem validateTaskWriteTail_eq_none_iff (p : TaskPayload) :
    validateTaskWriteTail p = none
      ↔ ((∀ s, p.priority = some s → validPriority s = true)
          ∧ ∀ ts, p.tags = some ts →
              (ts.all fun s => 0 < s.length && s.length ≤ 20) = true) := by
  cases h : p.priority with
  | none => simp [validateTaskWriteTail, h, validateTaskWriteTags_eq_none_iff]
  | some s =>
    simp only [validateTaskWriteTail, h]
    split_ifs with hc <;> simp_all [validateTaskWriteTags_eq_none_iff]

/-- Characterization of the status, priority and tags checks. -/
theorem validateTaskWriteRest_eq_none_iff (p : TaskPayload) :
    validateTaskWriteRest p = none
      ↔ ((∀ s, p.status = some s → validStatus s = true)
          ∧ (∀ s, p.priority = some s → validPriority s = true)
          ∧ ∀ ts, p.tags = some ts →
              (ts.all fun s => 0 < s.length && s.length ≤ 20) = true) := by
  cases h : p.status with
  | none => simp [validateTaskWriteRest, h, validateTaskWriteTail_eq_none_iff]
  | some s =>
    simp only [validateTaskWriteRest, h]
    split_ifs with hc <;> simp_all [validateTaskWriteTail_eq_none_iff]

/-- Full characterization of `taskSchema_validation` acceptance: a body passes
exactly when it carries a nonempty title of at most 100 characters and each
other field, when present, is valid. -/
theorem validateTaskWrite_eq_none_iff (p : TaskPayload) :
    validateTaskWrite p = none
      ↔ ∃ tt, p.title = some tt ∧ tt.length ≠ 0 ∧ tt.length ≤ 100
          ∧ (∀ d, p.description = some d → d.length ≤ 500)
          ∧ (∀ s, p.status = some s → validStatus s = true)
          ∧ (∀ s, p.priority = some s → validPriority s = true)
          ∧ ∀ ts, p.tags = some ts →
              (ts.all fun s => 0 < s.length && s.length ≤ 20) = true := by
  cases h : p.title with
  | none => simp [validateTaskWrite, h]
  | some tt =>
    simp only [validateTaskWrite, h]
    split_ifs with h0 h100
    · simp_all
    · simp_all
    · cases hd : p.description with
      | none =>
        rw [validateTaskWriteRest_eq_none_iff]
        simp_all
      | some d =>
        show (if 500 < d.length then
            some "description length must be less than or equal to 500 characters long"
          else validateTaskWriteRest p) = none ↔ _
        split_ifs with h500
        · simp_all
        · rw [validateTaskWriteRest_eq_none_iff]
          simp_all

/-- Arithmetic helper: the formula `(total + k - 1) / k` in natural division
is the ceiling of the rational quotient. -/
theorem natCeilDiv_eq_ceil (total k : Nat) (hk : 0 < k) :
    ((((total + k - 1) / k : Nat)) : Int) = ⌈(total : ℚ) / (k : ℚ)⌉ := by
  have hkq : (0 : ℚ) < (k : ℚ) := by exact_mod_cast hk
  have hub : total ≤ ((total + k - 1) / k) * k := by
    have h1 : total + k - 1 < ((total + k - 1) / k + 1) * k :=
      (Nat.div_lt_iff_lt_mul hk).mp (Nat.lt_succ_self _)
    rw [Nat.succ_mul] at h1
    generalize ((total + k - 1) / k) * k = P at h1 ⊢
    omega
  symm
  rw [Int.ceil_eq_iff]
  constructor
  · by_cases hn0 : (total + k - 1) / k = 0
    · rw [hn0]
      have hpos : (0 : ℚ) ≤ (total : ℚ) / (k : ℚ) := by positivity
      push_cast
      linarith
    · have hn1 : 1 ≤ (total + k - 1) / k := Nat.pos_of_ne_zero hn0
      have htot : 1 ≤ total := by
        by_contra h0
        have h00 : total = 0 := by omega
        subst h00
        exact hn0 (Nat.div_eq_of_lt (by omega))
      have h2 : ((total + k - 1) / k) * k ≤ total + k - 1 :=
        (Nat.le_div_iff_mul_le hk).mp (Nat.le_refl _)
      have h3 : ((total + k - 1) / k - 1) * k < total := by
        rw [Nat.sub_mul, one_mul]
        generalize ((total + k - 1) / k) * k = P at h2 ⊢
        omega
      have hcast1 : ((((total + k - 1) / k : Nat) : ℚ)) - 1
          = (((total + k - 1) / k - 1 : Nat) : ℚ) := by
        rw [Nat.cast_sub hn1]
        norm_num
      rw [Int.cast_natCast, hcast1, lt_div_iff₀ hkq]
      exact_mod_cast h3
  · rw [Int.cast_natCast, div_le_iff₀ hkq]
    exact_mod_cast hub

/-- For a positive limit, the `Math.ceil(total / limit)` computation of the
list handler is the mathematical ceiling of the rational quotient. -/
theorem jsCeilDiv_eq_ceil (total : Nat) (l : Int) (hl : 0 < l) :
    jsCeilDiv total l = ⌈(total : ℚ) / (l : ℚ)⌉ := by
  rw [jsCeilDiv, if_pos hl]
  have hcast : ((l.toNat : ℚ)) = (l : ℚ) := by
    have h1 : ((l.toNat : Int)) = l := Int.toNat_of_nonneg hl.le
    exact_mod_cast congrArg (fun z : Int => (z : ℚ)) h1
  rw [← hcast]
  exact natCeilDiv_eq_ceil total l.toNat (by omega)

/-! Claim theorems. -/

/-- C1: ownership isolation. A task owned by user A is never returned by a
successful List Tasks run under user B, and Update Task and Delete Task under
B with that task's correct id leave the store unchanged and respond 404,
the same result (`notFound`, store unchanged) produced for an id that exists
nowhere in the store. -/
theorem C1_ownership_isolation
    (store : List Task) (task : Task) (A B : Nat)
    (hmem : task ∈ store) (hA : task.userId = A) (hAB : B ≠ A)
    (huniq : ∀ t1 ∈ store, ∀ t2 ∈ store, t1.tid = t2.tid → t1 = t2)
    (page limit : Option Int) (status priority : Option String)
    (body : TaskPayload) (hbody : validateTaskWrite body = none) (now : Nat) :
    (∀ ts tp cp tot,
        getTasks B page limit status priority store = .ok ts tp cp tot → task ∉ ts)
    ∧ putTask now B task.tid body store = (.notFound, store)
    ∧ deleteTask B task.tid store = (.notFound, store)
    ∧ putStatus (putTask now B task.tid body store).1 = 404
    ∧ deleteStatus (deleteTask B task.tid store).1 = 404
    ∧ ∀ id0, (∀ t ∈ store, t.tid ≠ id0) →
        putTask now B id0 body store = (.notFound, store)
        ∧ deleteTask B id0 store = (.notFound, store) := by
  have hpred : ∀ t ∈ store, (t.tid == task.tid && t.userId == B) = false := by
    intro t ht
    by_cases hid : t.tid = task.tid
    · have heq : t = task := huniq t ht task hmem hid
      subst heq
      simp [hA, Ne.symm hAB]
    · simp [hid]
  have hput : putTask now B task.tid body store = (.notFound, store) := by
    simp [putTask, hbody, updateFirst_eq_none _ _ store hpred]
  have hdel : deleteTask B task.tid store = (.notFound, store) := by
    simp [deleteTask, removeFirst_eq_none _ store hpred]
  refine ⟨?_, hput, hdel, by rw [hput]; rfl, by rw [hdel]; rfl, ?_⟩
  · intro ts tp cp tot h hmemts
    have hB := userId_eq_of_mem_getTasks B page limit status priority store
      ts tp cp tot h task hmemts
    rw [hA] at hB
    exact hAB hB.symm
  · intro id0 hid0
    have hpred0 : ∀ t ∈ store, (t.tid == id0 && t.userId == B) = false := by
      intro t ht
      simp [hid0 t ht]
    exact ⟨by simp [putTask, hbody, updateFirst_eq_none _ _ store hpred0],
           by simp [deleteTask, removeFirst_eq_none _ store hpred0]⟩

/-- Witness for C1: with a store holding task 1 of user 1 and task 2 of
user 2, user 2 cannot update, delete, or list task 1. -/
theorem C1_ownership_isolation_witness :
    putTask 9 2 1 ⟨some "x", none, none, none, none, none⟩
        [⟨1, "t1", "", "pending", "medium", none, [], 1, 10, 10⟩,
         ⟨2, "t2", "", "pending", "medium", none, [], 2, 20, 20⟩]
      = (.notFound,
         [⟨1, "t1", "", "pending", "medium", none, [], 1, 10, 10⟩,
          ⟨2, "t2", "", "pending", "medium", none, [], 2, 20, 20⟩])
    ∧ deleteTask 2 1
        [⟨1, "t1", "", "pending", "medium", none, [], 1, 10, 10⟩,
         ⟨2, "t2", "", "pending", "medium", none, [], 2, 20, 20⟩]
      = (.notFound,
         [⟨1, "t1", "", "pending", "medium", none, [], 1, 10, 10⟩,
          ⟨2, "t2", "", "pending", "medium", none, [], 2, 20, 20⟩])
    ∧ ∀ ts tp cp tot,
        getTasks 2 none none none none
          [⟨1, "t1", "", "pending", "medium", none, [], 1, 10, 10⟩,
           ⟨2, "t2", "", "pending", "medium", none, [], 2, 20, 20⟩] = .ok ts tp cp tot →
        (⟨1, "t1", "", "pending", "medium", none, [], 1, 10, 10⟩ : Task) ∉ ts := by
  have h := C1_ownership_isolation
    [⟨1, "t1", "", "pending", "medium", none, [], 1, 10, 10⟩,
     ⟨2, "t2", "", "pending", "medium", none, [], 2, 20, 20⟩]
    ⟨1, "t1", "", "pending", "medium", none, [], 1, 10, 10⟩ 1 2
    (by decide) rfl (by decide) (by decide)
    none none none none ⟨some "x", none, none, none, none, none⟩ rfl 9
  exact ⟨h.2.1, h.2.2.1, h.1⟩

/-- C2: every login with a nonexistent email, with the email of a deactivated
user, or with an active email but wrong password yields the same
`401 Invalid credentials` response and leaves the credential store unchanged,
so the runs are observationally identical to the client; an email with no
active user can never produce a token. -/
theorem C2_login_failure_uniformity (verifyPw : String → String → Bool)
    (emailValid : String → Bool) (now : Nat) (users : List User)
    (e1 e2 pw1 pw2 : String)
    (hv1 : emailValid e1 = true) (hv2 : emailValid e2 = true)
    (hp1 : pw1.length ≠ 0) (hp2 : pw2.length ≠ 0)
    (h1 : ∀ u ∈ users, u.email = e1 → u.isActive = false)
    (u : User) (hu : users.find? (fun v => v.email == e2 && v.isActive) = some u)
    (hw : verifyPw pw2 u.password = false) :
    login verifyPw emailValid now users e1 pw1
      = (.unauthorized "Invalid credentials", users)
    ∧ login verifyPw emailValid now users e2 pw2
      = (.unauthorized "Invalid credentials", users)
    ∧ login verifyPw emailValid now users e1 pw1
      = login verifyPw emailValid now users e2 pw2
    ∧ loginStatus (login verifyPw emailValid now users e1 pw1).1 = 401
    ∧ ∀ pw tok usr st, login verifyPw emailValid now users e1 pw ≠ (.ok tok usr, st) := by
  have hfind : users.find? (fun v => v.email == e1 && v.isActive) = none := by
    rw [List.find?_eq_none]
    intro x hx
    simp only [Bool.and_eq_true, beq_iff_eq, not_and]
    intro hmail
    simp [h1 x hx hmail]
  have r1 : login verifyPw emailValid now users e1 pw1
      = (.unauthorized "Invalid credentials", users) := by
    simp [login, hv1, hp1, hfind]
  have r2 : login verifyPw emailValid now users e2 pw2
      = (.unauthorized "Invalid credentials", users) := by
    simp [login, hv2, hp2, hu, hw]
  refine ⟨r1, r2, r1.trans r2.symm, by rw [r1]; rfl, ?_⟩
  intro pw tok usr st
  simp only [login, hv1, if_true, hfind]
  split <;> simp

/-- Witness for C2 at a concrete store: one deactivated user holding `e1`
and one active user holding `e2` whose password check fails. -/
theorem C2_login_failure_uniformity_witness :
    login (fun _ _ => false) (fun _ => true) 9
        [{ uid := 1, username := "ina", email := "ina@x.com", password := "H1",
           role := "user", isActive := false, lastLogin := none, createdAt := 0 },
         { uid := 2, username := "bob", email := "bob@x.com", password := "H2",
           role := "user", isActive := true, lastLogin := none, createdAt := 0 }]
        "ina@x.com" "secret1"
      = (.unauthorized "Invalid credentials",
         [{ uid := 1, username := "ina", email := "ina@x.com", password := "H1",
            role := "user", isActive := false, lastLogin := none, createdAt := 0 },
          { uid := 2, username := "bob", email := "bob@x.com", password := "H2",
            role := "user", isActive := true, lastLogin := none, createdAt := 0 }])
    ∧ login (fun _ _ => false) (fun _ => true) 9
        [{ uid := 1, username := "ina", email := "ina@x.com", password := "H1",
           role := "user", isActive := false, lastLogin := none, createdAt := 0 },
         { uid := 2, username := "bob", email := "bob@x.com", password := "H2",
           role := "user", isActive := true, lastLogin := none, createdAt := 0 }]
        "bob@x.com" "wrongpw"
      = (.unauthorized "Invalid credentials",
         [{ uid := 1, username := "ina", email := "ina@x.com", password := "H1",
            role := "user", isActive := false, lastLogin := none, createdAt := 0 },
          { uid := 2, username := "bob", email := "bob@x.com", password := "H2",
            role := "user", isActive := true, lastLogin := none, createdAt := 0 }]) := by
  have h := C2_login_failure_uniformity (fun _ _ => false) (fun _ => true) 9
    [{ uid := 1, username := "ina", email := "ina@x.com", password := "H1",
       role := "user", isActive := false, lastLogin := none, createdAt := 0 },
     { uid := 2, username := "bob", email := "bob@x.com", password := "H2",
       role := "user", isActive := true, lastLogin := none, createdAt := 0 }]
    "ina@x.com" "bob@x.com" "secret1" "wrongpw" rfl rfl (by decide) (by decide)
    (by decide)
    { uid := 2, username := "bob", email := "bob@x.com", password := "H2",
      role := "user", isActive := true, lastLogin := none, createdAt := 0 }
    (by decide) rfl
  exact ⟨h.1, h.2.1⟩

/-- C3: on every protected route (the routes are handler instances of
`protectedRoute`), a request whose Authorization header carries no token is
answered 401, and one whose token fails verification (tampered or expired)
is answered 403; in both cases the response is independent of the handler and
the store is returned untouched, so the handler body is never entered. -/
theorem C3_token_gate {σ ρ : Type} (verifyTok : String → VerifyResult)
    (authHeader : Option String) (handler : TokenPayload → σ → ρ × σ) (store : σ) :
    (extractToken authHeader = none →
      protectedRoute verifyTok authHeader handler store
        = (.authFail 401 "Access token required", store))
    ∧ ∀ tok, extractToken authHeader = some tok → verifyTok tok = .invalid →
      protectedRoute verifyTok authHeader handler store
        = (.authFail 403 "Invalid token", store) := by
  constructor
  · intro h
    simp [protectedRoute, authenticateToken, h]
  · intro tok h hv
    simp [protectedRoute, authenticateToken, h, hv]

/-- Witness for C3: a missing header is rejected 401 and a present but
unverifiable token 403, on a concrete task-list route instance. -/
theorem C3_token_gate_witness :
    (extractToken none = none
      ∧ protectedRoute (fun _ => VerifyResult.invalid) none
          (fun u (s : List Task) => (getTasks u.userId none none none none s, s)) []
        = (.authFail 401 "Access token required", []))
    ∧ (extractToken (some "Bearer abc") = some "abc"
      ∧ protectedRoute (fun _ => VerifyResult.invalid) (some "Bearer abc")
          (fun u (s : List Task) => (getTasks u.userId none none none none s, s)) []
        = (.authFail 403 "Invalid token", [])) := by
  refine ⟨⟨rfl, (C3_token_gate _ _ _ _).1 rfl⟩,
    ⟨by decide, (C3_token_gate _ _ _ _).2 "abc" (by decide) rfl⟩⟩

/-- C4: a valid registration whose username or email collides with an existing
record fails with `400 User already exists` and leaves the credential store
exactly as it was. -/
theorem C4_register_conflict (hashPw : String → String) (emailValid : String → Bool)
    (now freshId : Nat) (users : List User) (username email password : String)
    (hval : validateRegister emailValid username email password = none)
    (u : User) (hu : u ∈ users) (hcol : u.email = email ∨ u.username = username) :
    register hashPw emailValid now freshId users username email password
      = (.badRequest "User already exists", users)
    ∧ registerStatus
        (register hashPw emailValid now freshId users username email password).1
      = 400 := by
  have hpred : (fun v => v.email == email || v.username == username) u = true := by
    simp only [Bool.or_eq_true, beq_iff_eq]
    exact hcol
  have hfind : (users.find? (fun v => v.email == email || v.username == username)).isSome := by
    cases hf : users.find? (fun v => v.email == email || v.username == username) with
    | some w => rfl
    | none =>
      rw [List.find?_eq_none] at hf
      exact absurd hpred (hf u hu)
  obtain ⟨w, hw⟩ := Option.isSome_iff_exists.mp hfind
  have hreg : register hashPw emailValid now freshId users username email password
      = (.badRequest "User already exists", users) := by
    simp [register, hval, hw]
  exact ⟨hreg, by rw [hreg]; rfl⟩

/-- Witness for C4: registering a second account reusing an existing email
under a different username is rejected and the store is unchanged. -/
theorem C4_register_conflict_witness :
    register (fun s => s) (fun _ => true) 5 7
        [{ uid := 1, username := "alice", email := "a@x.com", password := "H",
           role := "user", isActive := true, lastLogin := none, createdAt := 0 }]
        "bob42" "a@x.com" "secret1"
      = (.badRequest "User already exists",
         [{ uid := 1, username := "alice", email := "a@x.com", password := "H",
            role := "user", isActive := true, lastLogin := none, createdAt := 0 }]) :=
  (C4_register_conflict (fun s => s) (fun _ => true) 5 7
    [{ uid := 1, username := "alice", email := "a@x.com", password := "H",
       role := "user", isActive := true, lastLogin := none, createdAt := 0 }]
    "bob42" "a@x.com" "secret1" (by decide)
    { uid := 1, username := "alice", email := "a@x.com", password := "H",
      role := "user", isActive := true, lastLogin := none, createdAt := 0 }
    (by decide) (Or.inl rfl)).1

/-- Counterexample to C5 as stated: `taskSchema_validation` marks `title`
required and `PUT /api/tasks/:id` reuses that schema, so a body carrying only
`status` is rejected 400 and the task is not updated. -/
theorem C5_partial_update_counterexample :
    validateTaskWrite ⟨none, none, some "completed", none, none, none⟩
      = some "title is required"
    ∧ putTask 7 1 1 ⟨none, none, some "completed", none, none, none⟩
        [⟨1, "t", "", "pending", "medium", none, [], 1, 3, 3⟩]
      = (.badRequest "title is required",
         [⟨1, "t", "", "pending", "medium", none, [], 1, 3, 3⟩])
    ∧ putStatus (putTask 7 1 1 ⟨none, none, some "completed", none, none, none⟩
        [⟨1, "t", "", "pending", "medium", none, [], 1, 3, 3⟩]).1 = 400 :=
  ⟨rfl, rfl, rfl⟩

/-- C5 as amended: update validation accepts a body exactly when it carries a
valid `title` (nonempty, at most 100 characters) together with any subset of
the other task-write fields, each valid when present (description at most 500
characters, status and priority in their enums, tags items nonempty strings
of at most 20 characters); a successful update rewrites just the supplied
fields (plus `updatedAt`), keeping the stored value of each omitted field. -/
theorem C5_partial_update_amended
    (body : TaskPayload) (now uid id : Nat) (pre post : List Task) (t : Task)
    (hid : t.tid = id) (hown : t.userId = uid)
    (hpre : ∀ x ∈ pre, (x.tid == id && x.userId == uid) = false) :
    (validateTaskWrite body = none
      ↔ ∃ tt, body.title = some tt ∧ tt.length ≠ 0 ∧ tt.length ≤ 100
          ∧ (∀ d, body.description = some d → d.length ≤ 500)
          ∧ (∀ s, body.status = some s → validStatus s = true)
          ∧ (∀ s, body.priority = some s → validPriority s = true)
          ∧ ∀ ts, body.tags = some ts →
              (ts.all fun s => 0 < s.length && s.length ≤ 20) = true)
    ∧ (validateTaskWrite body = none →
        putTask now uid id body (pre ++ t :: post)
          = (.ok (applyUpdate body now t), pre ++ applyUpdate body now t :: post))
    ∧ (∀ tt, body.title = some tt → (applyUpdate body now t).title = jsTrim tt)
    ∧ (∀ s, body.status = some s → (applyUpdate body now t).status = s)
    ∧ (∀ s, body.priority = some s → (applyUpdate body now t).priority = s)
    ∧ (∀ d, body.description = some d →
         (applyUpdate body now t).description = jsTrim d)
    ∧ (∀ d, body.dueDate = some d → (applyUpdate body now t).dueDate = some d)
    ∧ (∀ ts, body.tags = some ts → (applyUpdate body now t).tags = ts.map jsTrim)
    ∧ (body.status = none → (applyUpdate body now t).status = t.status)
    ∧ (body.priority = none → (applyUpdate body now t).priority = t.priority)
    ∧ (body.description = none →
         (applyUpdate body now t).description = t.description)
    ∧ (body.dueDate = none → (applyUpdate body now t).dueDate = t.dueDate)
    ∧ (body.tags = none → (applyUpdate body now t).tags = t.tags) := by
  have hmatch : (fun x => x.tid == id && x.userId == uid) t = true := by
    simp [hid, hown]
  have hupd := updateFirst_append (fun x => x.tid == id && x.userId == uid)
    (applyUpdate body now) pre t post hpre hmatch
  refine ⟨validateTaskWrite_eq_none_iff body, ?_, ?_, ?_, ?_, ?_, ?_, ?_,
    ?_, ?_, ?_, ?_, ?_⟩
  · intro hval
    simp [putTask, hval, hupd]
  · intro tt h
    simp [applyUpdate, h]
  · intro s h
    simp [applyUpdate, h]
  · intro s h
    simp [applyUpdate, h]
  · intro d h
    simp [applyUpdate, h]
  · intro d h
    simp [applyUpdate, h]
  · intro ts h
    simp [applyUpdate, h]
  · intro h
    simp [applyUpdate, h]
  · intro h
    simp [applyUpdate, h]
  · intro h
    simp [applyUpdate, h]
  · intro h
    simp [applyUpdate, h]
  · intro h
    simp [applyUpdate, h]

/-- Witness for the amended C5: a body carrying only `title` and `status`
passes validation and updates exactly those fields of the owned task, while
the biconditional rejects a body whose tags hold an empty string. -/
theorem C5_partial_update_amended_witness :
    validateTaskWrite ⟨some "t2", none, some "completed", none, none, none⟩ = none
    ∧ putTask 8 5 2 ⟨some "t2", none, some "completed", none, none, none⟩
        [⟨2, "t1", "de", "pending", "high", some 6, ["x"], 5, 4, 4⟩]
      = (.ok ⟨2, "t2", "de", "completed", "high", some 6, ["x"], 5, 4, 8⟩,
         [⟨2, "t2", "de", "completed", "high", some 6, ["x"], 5, 4, 8⟩])
    ∧ validateTaskWrite ⟨some "t2", none, some "completed", none, none, some [""]⟩
        ≠ none := by
  have h := C5_partial_update_amended
    ⟨some "t2", none, some "completed", none, none, none⟩
    8 5 2 [] [] ⟨2, "t1", "de", "pending", "high", some 6, ["x"], 5, 4, 4⟩
    rfl rfl (fun x hx => absurd hx (List.not_mem_nil x))
  have hacc : validateTaskWrite ⟨some "t2", none, some "completed", none, none, none⟩
      = none :=
    h.1.mpr ⟨"t2", rfl, by decide, by decide,
      fun d hd => Option.noConfusion hd,
      (by intro s hs; cases hs; decide),
      fun s hs => Option.noConfusion hs,
      fun ts hts => Option.noConfusion hts⟩
  refine ⟨hacc, h.2.1 hacc, ?_⟩
  intro hnone
  have h2 := C5_partial_update_amended
    ⟨some "t2", none, some "completed", none, none, some [""]⟩
    8 5 2 [] [] ⟨2, "t1", "de", "pending", "high", some 6, ["x"], 5, 4, 4⟩
    rfl rfl (fun x hx => absurd hx (List.not_mem_nil x))
  obtain ⟨tt, -, -, -, -, -, -, htags⟩ := h2.1.mp hnone
  exact absurd (htags [""] rfl) (by decide)

/-- Counterexample to C6 as stated: the raw query value `page = 0` flows
directly into `skip((page - 1) * limit)`; the store rejects the negative skip
and the handler lands in its catch branch, responding 500. -/
theorem C6_pagination_raw_counterexample :
    getTasks 1 (some 0) (some 10) none none [] = .serverError
    ∧ listStatus (getTasks 1 (some 0) (some 10) none none [])= 500 :=
  ⟨by decide, by decide⟩

/-- C6 as amended: `page` and `limit` are not clamped or validated; the
handler computes the offset `(page - 1) * limit` from the raw client values
(defaults apply only when a parameter is absent), so any `page ≤ 0` with a
positive `limit` makes the offset negative, the store query fails, and the
handler answers 500 from its error branch. -/
theorem C6_pagination_raw_amended (uid : Nat) (page limit : Int)
    (status priority : Option String) (store : List Task)
    (hp : page ≤ 0) (hl : 1 ≤ limit) :
    getTasks uid (some page) (some limit) status priority store = .serverError
    ∧ listStatus (getTasks uid (some page) (some limit) status priority store)
      = 500 := by
  have hskip : (page - 1) * limit < 0 :=
    mul_neg_of_neg_of_pos (by omega) (by omega)
  have h : getTasks uid (some page) (some limit) status priority store
      = .serverError := by
    rw [getTasks]
    simp only [Option.getD_some]
    rw [if_pos hskip]
  exact ⟨h, by rw [h]; rfl⟩

/-- Witness for the amended C6 at page -1, limit 5, on a nonempty store. -/
theorem C6_pagination_raw_amended_witness :
    getTasks 3 (some (-1)) (some 5) none none
        [⟨1, "t", "", "pending", "medium", none, [], 3, 1, 1⟩] = .serverError :=
  (C6_pagination_raw_amended 3 (-1) 5 none none
    [⟨1, "t", "", "pending", "medium", none, [], 3, 1, 1⟩]
    (by decide) (by decide)).1

/-- Counterexample to C8 as stated: `registerSchema` uses `Joi.string().alphanum()`,
which rejects the underscore, so the 3-character username with an underscore
is refused 400 and never stored, although the mongoose schema pattern (and the
spec) allow underscores. -/
theorem C8_username_underscore_counterexample :
    validateRegister (fun _ => true) "ab_" "a@b.c" "secret1"
      = some "username must only contain alpha-numeric characters"
    ∧ register (fun s => s) (fun _ => true) 0 1 [] "ab_" "a@b.c" "secret1"
      = (.badRequest "username must only contain alpha-numeric characters", [])
    ∧ registerStatus
        (register (fun s => s) (fun _ => true) 0 1 [] "ab_" "a@b.c" "secret1").1
      = 400 :=
  ⟨by decide, by decide, by decide⟩

/-- C8 as amended: with a valid email and password, a username passes
registration validation exactly when it is 3-30 characters drawn from the
alphanumerics only (underscore excluded, contrary to the store schema), and an
accepted registration stores the record. -/
theorem C8_username_charset_amended (emailValid : String → Bool)
    (username email password : String)
    (he : emailValid email = true) (hp6 : 6 ≤ password.length)
    (hp128 : password.length ≤ 128) :
    (validateRegister emailValid username email password = none
      ↔ (username.toList.all (fun c => c.isAlpha || c.isDigit) = true
          ∧ 3 ≤ username.length ∧ username.length ≤ 30))
    ∧ (validateRegister emailValid username email password = none →
        ∀ (hashPw : String → String) (now freshId : Nat),
          register hashPw emailValid now freshId [] username email password
            = (.created { userId := freshId, username := username, role := "user" }
                { uid := freshId, username := username, email := jsToLower email,
                  password := hashPw password, role := "user", isActive := true,
                  lastLogin := none, createdAt := now },
               [{ uid := freshId, username := username, email := jsToLower email,
                  password := hashPw password, role := "user", isActive := true,
                  lastLogin := none, createdAt := now }])) := by
  have hiff : validateRegister emailValid username email password = none
      ↔ validateUsername username = none := by
    simp only [validateRegister]
    cases h : validateUsername username with
    | some m => simp
    | none =>
      simp only [he, if_true]
      simp [validatePassword_eq_none_iff]
      omega
  constructor
  · rw [hiff, validateUsername_eq_none_iff]
  · intro hval hashPw now freshId
    simp [register, hval]

/-- Witness for the amended C8: the plain alphanumeric username ab9 is
accepted and stored. -/
theorem C8_username_charset_amended_witness :
    (validateRegister (fun _ => true) "ab9" "a@b.c" "secret1" = none
      ↔ (("ab9".toList.all (fun c => c.isAlpha || c.isDigit)) = true
          ∧ 3 ≤ "ab9".length ∧ "ab9".length ≤ 30))
    ∧ register (fun s => s) (fun _ => true) 4 8 [] "ab9" "a@b.c" "secret1"
      = (.created { userId := 8, username := "ab9", role := "user" }
          { uid := 8, username := "ab9", email := jsToLower "a@b.c",
            password := "secret1", role := "user", isActive := true,
            lastLogin := none, createdAt := 4 },
         [{ uid := 8, username := "ab9", email := jsToLower "a@b.c",
            password := "secret1", role := "user", isActive := true,
            lastLogin := none, createdAt := 4 }]) := by
  have h := C8_username_charset_amended (fun _ => true) "ab9" "a@b.c" "secret1"
    rfl (by decide) (by decide)
  exact ⟨h.1, h.2 (by decide) (fun s => s) 4 8⟩

/-- C9: a successful update sets `updatedAt` to the update time (strictly
later than `createdAt` whenever time has advanced since creation) and leaves
`createdAt`, the owner reference and the id exactly as stored; no field
outside the validated payload plus `updatedAt` changes. -/
theorem C9_update_frame (now uid id : Nat) (body : TaskPayload)
    (pre post : List Task) (t : Task)
    (hid : t.tid = id) (hown : t.userId = uid)
    (hpre : ∀ x ∈ pre, (x.tid == id && x.userId == uid) = false)
    (hok : validateTaskWrite body = none)
    (hc : t.createdAt < now) :
    putTask now uid id body (pre ++ t :: post)
      = (.ok (applyUpdate body now t), pre ++ applyUpdate body now t :: post)
    ∧ (applyUpdate body now t).updatedAt = now
    ∧ (applyUpdate body now t).createdAt = t.createdAt
    ∧ (applyUpdate body now t).userId = t.userId
    ∧ (applyUpdate body now t).tid = t.tid
    ∧ (applyUpdate body now t).createdAt < (applyUpdate body now t).updatedAt
    ∧ (body.description = none →
         (applyUpdate body now t).description = t.description)
    ∧ (body.status = none → (applyUpdate body now t).status = t.status)
    ∧ (body.priority = none → (applyUpdate body now t).priority = t.priority)
    ∧ (body.dueDate = none → (applyUpdate body now t).dueDate = t.dueDate)
    ∧ (body.tags = none → (applyUpdate body now t).tags = t.tags) := by
  have hmatch : (fun x => x.tid == id && x.userId == uid) t = true := by
    simp [hid, hown]
  have hupd := updateFirst_append (fun x => x.tid == id && x.userId == uid)
    (applyUpdate body now) pre t post hpre hmatch
  refine ⟨by simp [putTask, hok, hupd], rfl, rfl, rfl, rfl, ?_, ?_, ?_, ?_, ?_, ?_⟩
  · simpa [applyUpdate] using hc
  · intro h
    simp [applyUpdate, h]
  · intro h
    simp [applyUpdate, h]
  · intro h
    simp [applyUpdate, h]
  · intro h
    simp [applyUpdate, h]
  · intro h
    simp [applyUpdate, h]

/-- Witness for C9: updating title and status at time 9 of a task created at
time 3 yields `updatedAt = 9 > 3 = createdAt` with owner and id intact. -/
theorem C9_update_frame_witness :
    (3 : Nat) < 9
    ∧ putTask 9 4 1 ⟨some "new", none, some "completed", none, none, none⟩
        [⟨1, "old", "d", "pending", "low", none, ["a"], 4, 3, 3⟩]
      = (.ok ⟨1, "new", "d", "completed", "low", none, ["a"], 4, 3, 9⟩,
         [⟨1, "new", "d", "completed", "low", none, ["a"], 4, 3, 9⟩]) := by
  have h := C9_update_frame 9 4 1 ⟨some "new", none, some "completed", none, none, none⟩
    [] [] ⟨1, "old", "d", "pending", "low", none, ["a"], 4, 3, 3⟩
    rfl rfl (fun x hx => absurd hx (List.not_mem_nil x)) rfl (by decide)
  exact ⟨by decide, h.1⟩

/-- C10: with a valid username and email, registration accepts the password
exactly when its length lies between 6 and 128 inclusive; outside that range
the request fails 400 at validation and no user record is created. -/
theorem C10_password_length_bounds (emailValid : String → Bool)
    (username email password : String)
    (hu : validateUsername username = none) (he : emailValid email = true) :
    (validateRegister emailValid username email password = none
      ↔ (6 ≤ password.length ∧ password.length ≤ 128))
    ∧ ((password.length < 6 ∨ 128 < password.length) →
        ∀ (hashPw : String → String) (now freshId : Nat) (users : List User),
          ∃ msg, register hashPw emailValid now freshId users username email password
              = (.badRequest msg, users)) := by
  have hval : validateRegister emailValid username email password
      = validatePassword password := by
    simp only [validateRegister, hu, he, if_true]
  constructor
  · rw [hval, validatePassword_eq_none_iff]
  · intro hbad hashPw now freshId users
    have hex : ∃ m, validatePassword password = some m := by
      cases h : validatePassword password with
      | some m => exact ⟨m, rfl⟩
      | none =>
        rw [validatePassword_eq_none_iff] at h
        omega
    obtain ⟨m, hm⟩ := hex
    refine ⟨m, ?_⟩
    simp [register, hval, hm]

/-- C7: pagination consistency. For a caller owning exactly 12 tasks (and no
filters), pages 1, 2, 3 at limit 5 return 5, 5 and 2 tasks with
`totalPages = 3`, the three pages concatenate to the createdAt-descending
ordering of the owned tasks (so they partition them and are ordered within
and across pages), and in general the `totalPages` computation is the ceiling
of `total / limit` for any positive limit. -/
theorem C7_pagination_consistency (uid : Nat) (store : List Task)
    (h12 : (ownedTasks uid none none store).length = 12) :
    ∃ ts1 ts2 ts3,
      getTasks uid (some 1) (some 5) none none store = .ok ts1 3 1 12
      ∧ getTasks uid (some 2) (some 5) none none store = .ok ts2 3 2 12
      ∧ getTasks uid (some 3) (some 5) none none store = .ok ts3 3 3 12
      ∧ ts1.length = 5 ∧ ts2.length = 5 ∧ ts3.length = 2
      ∧ ts1 ++ (ts2 ++ ts3) = sortByCreatedAtDesc (ownedTasks uid none none store)
      ∧ (ts1 ++ (ts2 ++ ts3)).Perm (ownedTasks uid none none store)
      ∧ List.Sorted createdAtGe (ts1 ++ (ts2 ++ ts3))
      ∧ (∀ (total : Nat) (l : Int), 0 < l →
          jsCeilDiv total l = ⌈(total : ℚ) / (l : ℚ)⌉) := by
  set s := sortByCreatedAtDesc (ownedTasks uid none none store) with hs
  have hslen : s.length = 12 := by
    rw [hs, sortByCreatedAtDesc, List.length_insertionSort]
    exact h12
  have hceil : jsCeilDiv 12 5 = 3 := by decide
  have h3t : (s.drop 10).take 5 = s.drop 10 :=
    List.take_of_length_le (by rw [List.length_drop, hslen]; norm_num)
  have e1 : getTasks uid (some 1) (some 5) none none store = .ok (s.take 5) 3 1 12 := by
    rw [getTasks]
    simp only [Option.getD_some]
    rw [if_neg (by norm_num)]
    rw [h12, hceil, ← hs]
    norm_num
  have e2 : getTasks uid (some 2) (some 5) none none store
      = .ok ((s.drop 5).take 5) 3 2 12 := by
    rw [getTasks]
    simp only [Option.getD_some]
    rw [if_neg (by norm_num)]
    rw [h12, hceil, ← hs]
    norm_num [show (5 : Int).toNat = 5 from rfl]
  have e3 : getTasks uid (some 3) (some 5) none none store
      = .ok (s.drop 10) 3 3 12 := by
    rw [getTasks]
    simp only [Option.getD_some]
    rw [if_neg (by norm_num)]
    rw [h12, hceil, ← hs]
    norm_num [show (10 : Int).toNat = 10 from rfl, h3t]
  have hpart : s.take 5 ++ ((s.drop 5).take 5 ++ s.drop 10) = s := by
    calc s.take 5 ++ ((s.drop 5).take 5 ++ s.drop 10)
        = s.take 5 ++ ((s.drop 5).take 5 ++ (s.drop 5).drop 5) := by
          rw [List.drop_drop]
      _ = s.take 5 ++ s.drop 5 := by rw [List.take_append_drop]
      _ = s := List.take_append_drop 5 s
  refine ⟨s.take 5, (s.drop 5).take 5, s.drop 10, e1, e2, e3, ?_, ?_, ?_, hpart,
    ?_, ?_, fun total l hl => jsCeilDiv_eq_ceil total l hl⟩
  · rw [List.length_take, hslen]
    decide
  · rw [List.length_take, List.length_drop, hslen]
    decide
  · rw [List.length_drop, hslen]
  · rw [hpart, hs, sortByCreatedAtDesc]
    exact List.perm_insertionSort createdAtGe _
  · rw [hpart, hs, sortByCreatedAtDesc]
    exact List.sorted_insertionSort createdAtGe _

/-- Twelve tasks all owned by user 1, with distinct ids and creation times,
used to exercise pagination concretely. -/
def demoStore : List Task :=
  (List.range 12).map
    (fun i => ⟨i + 1, "t", "", "pending", "medium", none, [], 1, i + 1, i + 1⟩)

/-- Witness for C7 on a concrete store of 12 owned tasks. -/
theorem C7_pagination_consistency_witness :
    (ownedTasks 1 none none demoStore).length = 12
    ∧ ∃ ts1 ts2 ts3,
      getTasks 1 (some 1) (some 5) none none demoStore = .ok ts1 3 1 12
      ∧ getTasks 1 (some 2) (some 5) none none demoStore = .ok ts2 3 2 12
      ∧ getTasks 1 (some 3) (some 5) none none demoStore = .ok ts3 3 3 12
      ∧ ts1.length = 5 ∧ ts2.length = 5 ∧ ts3.length = 2
      ∧ ts1 ++ (ts2 ++ ts3) = sortByCreatedAtDesc (ownedTasks 1 none none demoStore)
      ∧ (ts1 ++ (ts2 ++ ts3)).Perm (ownedTasks 1 none none demoStore)
      ∧ List.Sorted createdAtGe (ts1 ++ (ts2 ++ ts3))
      ∧ (∀ (total : Nat) (l : Int), 0 < l →
          jsCeilDiv total l = ⌈(total : ℚ) / (l : ℚ)⌉) :=
  ⟨by decide, C7_pagination_consistency 1 demoStore (by decide)⟩

/-- Witness for C10: a 6-character password is accepted, a 3-character one
is rejected with the store untouched. -/
theorem C10_password_length_bounds_witness :
    (validateRegister (fun _ => true) "carol" "c@x.com" "abcdef" = none
      ↔ (6 ≤ "abcdef".length ∧ "abcdef".length ≤ 128))
    ∧ ∃ msg, register (fun s => s) (fun _ => true) 2 3 [] "carol" "c@x.com" "abc"
        = (.badRequest msg, []) := by
  have h1 := C10_password_length_bounds (fun _ => true) "carol" "c@x.com" "abcdef"
    (by decide) rfl
  have h2 := C10_password_length_bounds (fun _ => true) "carol" "c@x.com" "abc"
    (by decide) rfl
  exact ⟨h1.1, h2.2 (Or.inl (by decide)) (fun s => s) 2 3 []⟩

end Webapp
